import Mathlib

/-
Verification of the per-task status update stream of the slave status
update manager (src/slave/status_update_manager.hpp).

The embedding models `StatusUpdateStream` as a pure state-passing
structure.  File system effects are represented explicitly:

* the outcome of `protobuf::write` in `handle` is an input `w : Option
  String` (`none` means the write succeeded, `some e` means it failed
  with message `e`);
* the outcomes of `os::mkdir` and `os::open` in the constructor are
  inputs of `StatusUpdateStream.init`;
* the on-disk record file is mirrored by a `log : List
  StatusUpdateRecord` field holding the records appended so far, in
  order;
* a C++ `CHECK` failure (process abort) and the undefined behaviour of
  `std::queue::pop` on an empty queue are both modelled by the value
  `none` of the `Option` result of an operation.

`hashset<std::string>` becomes `Finset String` (unordered, idempotent
insertion), `std::queue<StatusUpdate>` becomes `List StatusUpdate` with
the head of the list as the front of the queue, and `Try<Nothing>`
becomes `Except String Unit`.
-/

set_option autoImplicit false

namespace Mesos

/-- A status update, treated as an opaque immutable value identified by
its uuid; the rest of the protobuf message is collapsed into an opaque
payload string. -/
structure StatusUpdate where
  uuid : String
  payload : String
deriving DecidableEq, Repr

/-- The `StatusUpdateRecord::Type` enum. -/
inductive StatusUpdateRecordType where
  | UPDATE
  | ACK
deriving DecidableEq, Repr

/-- A `StatusUpdateRecord` as written to the stream file: an `UPDATE`
record carries the full update, an `ACK` record carries only the uuid. -/
inductive StatusUpdateRecord where
  | update (u : StatusUpdate)
  | ack (uuid : String)
deriving DecidableEq, Repr

/-- The C++ type `Try<Nothing>`: success (`Nothing()`) or an error
message. -/
abbrev TryNothing := Except String Unit

/-- Decidable equality of `Except` results, so that witnesses can be
checked by evaluation. -/
instance {ε α : Type} [DecidableEq ε] [DecidableEq α] :
    DecidableEq (Except ε α) := fun a b =>
  match a, b with
  | .error e1, .error e2 =>
    if h : e1 = e2 then .isTrue (by rw [h])
    else .isFalse (fun hc => h (by injection hc))
  | .ok x, .ok y =>
    if h : x = y then .isTrue (by rw [h])
    else .isFalse (fun hc => h (by injection hc))
  | .error _, .ok _ => .isFalse (fun hc => by injection hc)
  | .ok _, .error _ => .isFalse (fun hc => by injection hc)

/-- The C++ type `Result<StatusUpdate>`: a value, none, or an error. -/
inductive MesosResult (α : Type) where
  | some (a : α)
  | none
  | error (msg : String)
deriving DecidableEq, Repr

/-- The state of `StatusUpdateStream`.  `taskId` and `frameworkId` are
omitted (they are const identity, never read by the modelled
operations); `timeout` is manager-side state out of scope here.  `log`
mirrors the on-disk record file. -/
structure StatusUpdateStream where
  received : Finset String
  acknowledged : Finset String
  pending : List StatusUpdate
  path : Option String
  fd : Option Int
  error : Option String
  log : List StatusUpdateRecord
deriving DecidableEq

namespace StatusUpdateStream

/-- The `StatusUpdateStream` constructor.  `mkdirOk` is the outcome of
`os::mkdir` on the parent directory and `openResult` the outcome of
`os::open` (the open flags and mode only affect the file system, not the
state).  On a failure `error` is set and `fd` stays unset. -/
def init (path : Option String) (mkdirOk : Bool)
    (openResult : Except String Int) : StatusUpdateStream :=
  let s : StatusUpdateStream :=
    { received := ∅, acknowledged := ∅, pending := [], path := path,
      fd := none, error := none, log := [] }
  match path with
  | none => s
  | some p =>
    if !mkdirOk then
      { s with error := some ("Failed to create " ++ p) }
    else
      match openResult with
      | .error _ =>
        { s with error := some ("Failed to open " ++ p ++ " for status updates") }
      | .ok f => { s with fd := some f }

/-- `StatusUpdateStream::handle`.  Checkpoints the record if `path` is
set, then applies the in-memory mutation.  `none` models a `CHECK`
failure (`CHECK(error.isNone())`, `CHECK_SOME(fd)`) or the undefined
`pending.pop()` on an empty queue. -/
def handle (s : StatusUpdateStream) (u : StatusUpdate)
    (ty : StatusUpdateRecordType) (w : Option String) :
    Option (TryNothing × StatusUpdateStream) :=
  if s.error.isSome then
    none
  else
    let finish : StatusUpdateStream → Option (TryNothing × StatusUpdateStream) :=
      fun t =>
        match ty with
        | .UPDATE =>
          some (Except.ok (),
            { t with received := insert u.uuid t.received,
                     pending := t.pending ++ [u] })
        | .ACK =>
          match t.pending with
          | [] => none
          | _ :: rest =>
            some (Except.ok (),
              { t with acknowledged := insert u.uuid t.acknowledged,
                       pending := rest })
    match s.path with
    | none => finish s
    | some p =>
      match s.fd with
      | none => none
      | some _ =>
        match w with
        | some e =>
          let msg := "Failed to write status update " ++ u.uuid ++
                     " to " ++ p ++ ": " ++ e
          some (Except.error msg, { s with error := some msg })
        | none =>
          let record : StatusUpdateRecord :=
            match ty with
            | .UPDATE => .update u
            | .ACK => .ack u.uuid
          finish { s with log := s.log ++ [record] }

/-- `StatusUpdateStream::update`. -/
def update (s : StatusUpdateStream) (u : StatusUpdate)
    (w : Option String) : Option (TryNothing × StatusUpdateStream) :=
  match s.error with
  | some e => some (Except.error e, s)
  | none =>
    if u.uuid ∈ s.acknowledged then
      some (Except.ok (), s)
    else if u.uuid ∈ s.received then
      some (Except.ok (), s)
    else
      s.handle u .UPDATE w

/-- `StatusUpdateStream::acknowledgement`.  The `CHECK` that the
acknowledged uuid equals the uuid of the paired update aborts on
mismatch, modelled by `none`. -/
def acknowledgement (s : StatusUpdateStream)
    (_taskId _frameworkId : String) (uuid : String) (u : StatusUpdate)
    (w : Option String) : Option (TryNothing × StatusUpdateStream) :=
  match s.error with
  | some e => some (Except.error e, s)
  | none =>
    if uuid ≠ u.uuid then
      none
    else
      s.handle u .ACK w

/-- `StatusUpdateStream::next`: the front of the pending queue, without
mutation. -/
def next (s : StatusUpdateStream) : MesosResult StatusUpdate :=
  match s.error with
  | some e => MesosResult.error e
  | none =>
    match s.pending with
    | [] => MesosResult.none
    | u :: _ => MesosResult.some u

end StatusUpdateStream

/-- One operation of a client of a stream.  An `ack` op carries the
update `u` the caller pairs with the acknowledgement; the uuid passed is
`u.uuid`, per the stated caller obligation. -/
inductive Op where
  | update (u : StatusUpdate) (w : Option String)
  | ack (u : StatusUpdate) (w : Option String)
  | next
deriving DecidableEq, Repr

/-- The state reached after one operation.  The fallback branches for an
aborted operation are unreachable on the traces considered (see
`legit`). -/
def step (s : StatusUpdateStream) : Op → StatusUpdateStream
  | .update u w =>
    match s.update u w with
    | some r => r.2
    | none => s
  | .ack u w =>
    match s.acknowledgement "" "" u.uuid u w with
    | some r => r.2
    | none => s
  | .next => s

/-- The state reached after a sequence of operations. -/
def run (s : StatusUpdateStream) : List Op → StatusUpdateStream
  | [] => s
  | op :: rest => run (step s op) rest

/-- The stated caller obligation: every acknowledgement is called with
`u` equal to the current head of `pending`. -/
def legit (s : StatusUpdateStream) : List Op → Bool
  | [] => true
  | op :: rest =>
    (match op with
     | .ack u _ => decide (s.pending.head? = some u)
     | _ => true) && legit (step s op) rest

/-- Whether `update u` succeeds and records the update: the stream has
no error, the uuid is fresh, and if the stream checkpoints, the file is
open and the write succeeds. -/
def accepts (s : StatusUpdateStream) (u : StatusUpdate)
    (w : Option String) : Bool :=
  s.error.isNone && decide (u.uuid ∉ s.acknowledged) &&
  decide (u.uuid ∉ s.received) &&
  (match s.path with
   | none => true
   | some _ => s.fd.isSome && w.isNone)

/-- The updates of a trace that are accepted and enqueued, in arrival
order. -/
def arrivals (s : StatusUpdateStream) : List Op → List StatusUpdate
  | [] => []
  | op :: rest =>
    (match op with
     | .update u w => if accepts s u w then [u] else []
     | _ => []) ++ arrivals (step s op) rest

/-- The stream invariant: pending carries no duplicate uuid, the uuids
of pending are exactly the received but unacknowledged ones, every
acknowledged uuid was received, and a clean checkpointing stream has an
open file. -/
def Inv (s : StatusUpdateStream) : Prop :=
  (s.pending.map StatusUpdate.uuid).Nodup ∧
  (s.pending.map StatusUpdate.uuid).toFinset = s.received \ s.acknowledged ∧
  s.acknowledged ⊆ s.received ∧
  (s.error = none → s.path.isSome → s.fd.isSome)

/-! Concrete values used by witnesses and counterexamples. -/

/-- A sample update. -/
def tu1 : StatusUpdate := ⟨"uuid-1", "TASK_RUNNING"⟩

/-- A second sample update with a distinct uuid. -/
def tu2 : StatusUpdate := ⟨"uuid-2", "TASK_FINISHED"⟩

/-- A fresh stream without checkpointing. -/
def fresh : StatusUpdateStream := StatusUpdateStream.init none true (.ok 0)

/-- A fresh checkpointing stream whose directory and file operations
succeeded. -/
def freshC : StatusUpdateStream :=
  StatusUpdateStream.init (some "updates") true (.ok 3)

/-- A stream whose constructor failed to create the base directory. -/
def errStream : StatusUpdateStream :=
  StatusUpdateStream.init (some "p") false (.error "x")

/-- A stream holding two received, unacknowledged updates. -/
def c2base : StatusUpdateStream :=
  run fresh [.update tu1 none, .update tu2 none]

/-- The state after acknowledging `tu1` once on `c2base`. -/
def c2once : StatusUpdateStream := step c2base (.ack tu1 none)

/-- The state after acknowledging `tu1` twice on `c2base`. -/
def c2twice : StatusUpdateStream := step c2once (.ack tu1 none)

/-- The state of a fresh checkpointing stream after an update whose
append failed. -/
def c6s : StatusUpdateStream := step freshC (.update tu1 (some "disk full"))

/-! Equation lemmas describing each branch of the operations. -/

namespace StatusUpdateStream

theorem update_error (s : StatusUpdateStream) (u : StatusUpdate)
    (w : Option String) (e : String) (h : s.error = some e) :
    s.update u w = some (Except.error e, s) := by
  simp [update, h]

theorem update_dup (s : StatusUpdateStream) (u : StatusUpdate)
    (w : Option String) (he : s.error = none)
    (hd : u.uuid ∈ s.acknowledged ∨ u.uuid ∈ s.received) :
    s.update u w = some (Except.ok (), s) := by
  rcases hd with hd | hd
  · simp [update, he, hd]
  · by_cases ha : u.uuid ∈ s.acknowledged <;> simp [update, he, ha, hd]

theorem update_fresh_nopath (s : StatusUpdateStream) (u : StatusUpdate)
    (w : Option String) (he : s.error = none)
    (ha : u.uuid ∉ s.acknowledged) (hr : u.uuid ∉ s.received)
    (hp : s.path = none) :
    s.update u w = some (Except.ok (),
      { s with received := insert u.uuid s.received,
               pending := s.pending ++ [u] }) := by
  simp [update, handle, he, ha, hr, hp]

theorem update_fresh_path_nofd (s : StatusUpdateStream) (u : StatusUpdate)
    (w : Option String) (p : String) (he : s.error = none)
    (ha : u.uuid ∉ s.acknowledged) (hr : u.uuid ∉ s.received)
    (hp : s.path = some p) (hf : s.fd = none) :
    s.update u w = none := by
  simp [update, handle, he, ha, hr, hp, hf]

theorem update_fresh_path_fail (s : StatusUpdateStream) (u : StatusUpdate)
    (p : String) (fdv : Int) (e : String) (he : s.error = none)
    (ha : u.uuid ∉ s.acknowledged) (hr : u.uuid ∉ s.received)
    (hp : s.path = some p) (hf : s.fd = some fdv) :
    s.update u (some e) =
      some (Except.error ("Failed to write status update " ++ u.uuid ++
              " to " ++ p ++ ": " ++ e),
            { s with error := some ("Failed to write status update " ++
                u.uuid ++ " to " ++ p ++ ": " ++ e) }) := by
  simp [update, handle, he, ha, hr, hp, hf]

theorem update_fresh_path_ok (s : StatusUpdateStream) (u : StatusUpdate)
    (p : String) (fdv : Int) (he : s.error = none)
    (ha : u.uuid ∉ s.acknowledged) (hr : u.uuid ∉ s.received)
    (hp : s.path = some p) (hf : s.fd = some fdv) :
    s.update u none = some (Except.ok (),
      { s with received := insert u.uuid s.received,
               pending := s.pending ++ [u],
               log := s.log ++ [StatusUpdateRecord.update u] }) := by
  simp [update, handle, he, ha, hr, hp, hf]

theorem ack_error (s : StatusUpdateStream) (t f uuid : String)
    (u : StatusUpdate) (w : Option String) (e : String)
    (h : s.error = some e) :
    s.acknowledgement t f uuid u w = some (Except.error e, s) := by
  simp [acknowledgement, h]

theorem ack_mismatch (s : StatusUpdateStream) (t f uuid : String)
    (u : StatusUpdate) (w : Option String) (he : s.error = none)
    (hne : uuid ≠ u.uuid) :
    s.acknowledgement t f uuid u w = none := by
  simp [acknowledgement, he, hne]

theorem ack_match (s : StatusUpdateStream) (t f : String)
    (u : StatusUpdate) (w : Option String) (he : s.error = none) :
    s.acknowledgement t f u.uuid u w = s.handle u .ACK w := by
  simp [acknowledgement, he]

theorem handle_ack_nopath_cons (s : StatusUpdateStream) (u v : StatusUpdate)
    (rest : List StatusUpdate) (w : Option String) (he : s.error = none)
    (hp : s.path = none) (hpend : s.pending = v :: rest) :
    s.handle u .ACK w = some (Except.ok (),
      { s with acknowledged := insert u.uuid s.acknowledged,
               pending := rest }) := by
  simp [handle, he, hp, hpend]

theorem handle_ack_nopath_nil (s : StatusUpdateStream) (u : StatusUpdate)
    (w : Option String) (he : s.error = none)
    (hp : s.path = none) (hpend : s.pending = []) :
    s.handle u .ACK w = none := by
  simp [handle, he, hp, hpend]

theorem handle_ack_path_nofd (s : StatusUpdateStream) (u : StatusUpdate)
    (w : Option String) (p : String) (he : s.error = none)
    (hp : s.path = some p) (hf : s.fd = none) :
    s.handle u .ACK w = none := by
  simp [handle, he, hp, hf]

theorem handle_ack_path_fail (s : StatusUpdateStream) (u : StatusUpdate)
    (p : String) (fdv : Int) (e : String) (he : s.error = none)
    (hp : s.path = some p) (hf : s.fd = some fdv) :
    s.handle u .ACK (some e) =
      some (Except.error ("Failed to write status update " ++ u.uuid ++
              " to " ++ p ++ ": " ++ e),
            { s with error := some ("Failed to write status update " ++
                u.uuid ++ " to " ++ p ++ ": " ++ e) }) := by
  simp [handle, he, hp, hf]

theorem handle_ack_path_ok_cons (s : StatusUpdateStream) (u v : StatusUpdate)
    (rest : List StatusUpdate) (p : String) (fdv : Int)
    (he : s.error = none) (hp : s.path = some p) (hf : s.fd = some fdv)
    (hpend : s.pending = v :: rest) :
    s.handle u .ACK none = some (Except.ok (),
      { s with acknowledged := insert u.uuid s.acknowledged,
               pending := rest,
               log := s.log ++ [StatusUpdateRecord.ack u.uuid] }) := by
  simp [handle, he, hp, hf, hpend]

theorem handle_ack_path_ok_nil (s : StatusUpdateStream) (u : StatusUpdate)
    (p : String) (fdv : Int) (he : s.error = none) (hp : s.path = some p)
    (hf : s.fd = some fdv) (hpend : s.pending = []) :
    s.handle u .ACK none = none := by
  simp [handle, he, hp, hf, hpend]

end StatusUpdateStream

/-! The stream invariant and its preservation along legitimate traces. -/

theorem Inv_init (path : Option String) (mkdirOk : Bool)
    (openResult : Except String Int) :
    Inv (StatusUpdateStream.init path mkdirOk openResult) := by
  cases path with
  | none => simp [Inv, StatusUpdateStream.init]
  | some p =>
    cases mkdirOk with
    | false => simp [Inv, StatusUpdateStream.init]
    | true =>
      cases openResult with
      | error e => simp [Inv, StatusUpdateStream.init]
      | ok f => simp [Inv, StatusUpdateStream.init]

/-- Pushing a fresh uuid preserves the set part of the invariant. -/
theorem inv_insert_fresh (r k : Finset String) (l : List StatusUpdate)
    (u : StatusUpdate)
    (hnd : (l.map StatusUpdate.uuid).Nodup)
    (hms : (l.map StatusUpdate.uuid).toFinset = r \ k)
    (hsub : k ⊆ r) (ha : u.uuid ∉ k) (hr : u.uuid ∉ r) :
    ((l ++ [u]).map StatusUpdate.uuid).Nodup ∧
    ((l ++ [u]).map StatusUpdate.uuid).toFinset = insert u.uuid r \ k ∧
    k ⊆ insert u.uuid r := by
  have hnotin : u.uuid ∉ l.map StatusUpdate.uuid := by
    intro hmem
    have hx : u.uuid ∈ (l.map StatusUpdate.uuid).toFinset :=
      List.mem_toFinset.mpr hmem
    rw [hms] at hx
    exact hr (Finset.mem_sdiff.mp hx).1
  refine ⟨?_, ?_, hsub.trans (Finset.subset_insert _ _)⟩
  · simp only [List.map_append, List.map_cons, List.map_nil]
    simp [List.nodup_append, hnd, hnotin]
  · ext x
    have hx := Finset.ext_iff.mp hms x
    simp only [List.map_append, List.map_cons, List.map_nil,
      List.toFinset_append, List.toFinset_cons, List.toFinset_nil,
      Finset.mem_union, Finset.mem_insert, Finset.mem_sdiff,
      List.mem_toFinset, Finset.not_mem_empty, or_false] at hx ⊢
    by_cases hxe : x = u.uuid
    · subst hxe
      simp [ha]
    · simp only [hxe, or_false, false_or]
      tauto

/-- Acknowledging the head of pending preserves the set part of the
invariant. -/
theorem inv_ack_head (r k : Finset String) (v : StatusUpdate)
    (rest : List StatusUpdate)
    (hnd : ((v :: rest).map StatusUpdate.uuid).Nodup)
    (hms : ((v :: rest).map StatusUpdate.uuid).toFinset = r \ k)
    (hsub : k ⊆ r) :
    (rest.map StatusUpdate.uuid).Nodup ∧
    (rest.map StatusUpdate.uuid).toFinset = r \ insert v.uuid k ∧
    insert v.uuid k ⊆ r := by
  simp only [List.map_cons, List.nodup_cons] at hnd
  obtain ⟨hvnotin, hndrest⟩ := hnd
  have hvr : v.uuid ∈ r ∧ v.uuid ∉ k := by
    have hx := Finset.ext_iff.mp hms v.uuid
    simp only [List.toFinset_cons, List.map_cons, Finset.mem_insert,
      Finset.mem_sdiff, List.mem_toFinset] at hx
    exact Finset.mem_sdiff.mp (hms ▸ (by
      simp only [List.map_cons, List.toFinset_cons]
      exact Finset.mem_insert_self _ _))
  refine ⟨hndrest, ?_, Finset.insert_subset_iff.mpr ⟨hvr.1, hsub⟩⟩
  ext x
  have hx := Finset.ext_iff.mp hms x
  simp only [List.map_cons, List.toFinset_cons, Finset.mem_insert,
    Finset.mem_sdiff, List.mem_toFinset] at hx ⊢
  by_cases hxe : x = v.uuid
  · subst hxe
    simp only [List.mem_toFinset] at hvnotin ⊢
    simp [hvnotin]
  · simp only [hxe, false_or] at hx
    simp only [hxe, false_or]
    tauto

/-- One legitimate step preserves the invariant. -/
theorem Inv_step (s : StatusUpdateStream) (op : Op) (h : Inv s)
    (hleg : match op with
            | .ack u _ => s.pending.head? = some u
            | _ => True) :
    Inv (step s op) := by
  obtain ⟨hnd, hms, hsub, hwf⟩ := h
  cases op with
  | next => exact ⟨hnd, hms, hsub, hwf⟩
  | update u w =>
    cases herr : s.error with
    | some e =>
      simp only [step, StatusUpdateStream.update_error s u w e herr]
      exact ⟨hnd, hms, hsub, hwf⟩
    | none =>
      by_cases hack : u.uuid ∈ s.acknowledged
      · simp only [step, StatusUpdateStream.update_dup s u w herr (Or.inl hack)]
        exact ⟨hnd, hms, hsub, hwf⟩
      · by_cases hrec : u.uuid ∈ s.received
        · simp only [step,
            StatusUpdateStream.update_dup s u w herr (Or.inr hrec)]
          exact ⟨hnd, hms, hsub, hwf⟩
        · cases hp : s.path with
          | none =>
            simp only [step,
              StatusUpdateStream.update_fresh_nopath s u w herr hack hrec hp]
            obtain ⟨h1, h2, h3⟩ :=
              inv_insert_fresh s.received s.acknowledged s.pending u
                hnd hms hsub hack hrec
            exact ⟨h1, h2, h3, fun he hps => hwf herr hps⟩
          | some p =>
            cases hf : s.fd with
            | none =>
              simp only [step,
                StatusUpdateStream.update_fresh_path_nofd s u w p herr
                  hack hrec hp hf]
              exact ⟨hnd, hms, hsub, hwf⟩
            | some fdv =>
              cases w with
              | some e =>
                simp only [step,
                  StatusUpdateStream.update_fresh_path_fail s u p fdv e
                    herr hack hrec hp hf]
                exact ⟨hnd, hms, hsub, fun he hps => by simp at he⟩
              | none =>
                simp only [step,
                  StatusUpdateStream.update_fresh_path_ok s u p fdv
                    herr hack hrec hp hf]
                obtain ⟨h1, h2, h3⟩ :=
                  inv_insert_fresh s.received s.acknowledged s.pending u
                    hnd hms hsub hack hrec
                exact ⟨h1, h2, h3, fun he hps => by simp [hf]⟩
  | ack u w =>
    simp only at hleg
    obtain ⟨rest, hpend⟩ : ∃ rest, s.pending = u :: rest := by
      cases hc : s.pending with
      | nil => rw [hc] at hleg; simp at hleg
      | cons a t =>
        rw [hc] at hleg
        simp only [List.head?_cons, Option.some.injEq] at hleg
        exact ⟨t, by rw [hleg]⟩
    cases herr : s.error with
    | some e =>
      simp only [step, StatusUpdateStream.ack_error s "" "" u.uuid u w e herr]
      exact ⟨hnd, hms, hsub, hwf⟩
    | none =>
      rw [hpend] at hnd hms
      cases hp : s.path with
      | none =>
        simp only [step, StatusUpdateStream.ack_match s "" "" u w herr,
          StatusUpdateStream.handle_ack_nopath_cons s u u rest w herr hp hpend]
        obtain ⟨h1, h2, h3⟩ :=
          inv_ack_head s.received s.acknowledged u rest hnd hms hsub
        exact ⟨h1, h2, h3, fun he hps => hwf herr hps⟩
      | some p =>
        cases hf : s.fd with
        | none =>
          simp only [step, StatusUpdateStream.ack_match s "" "" u w herr,
            StatusUpdateStream.handle_ack_path_nofd s u w p herr hp hf]
          rw [← hpend] at hnd hms
          exact ⟨hnd, hms, hsub, hwf⟩
        | some fdv =>
          cases w with
          | some e =>
            simp only [step, StatusUpdateStream.ack_match s "" "" u _ herr,
              StatusUpdateStream.handle_ack_path_fail s u p fdv e herr hp hf]
            rw [← hpend] at hnd hms
            exact ⟨hnd, hms, hsub, fun he hps => by simp at he⟩
          | none =>
            simp only [step, StatusUpdateStream.ack_match s "" "" u _ herr,
              StatusUpdateStream.handle_ack_path_ok_cons s u u rest p fdv
                herr hp hf hpend]
            obtain ⟨h1, h2, h3⟩ :=
              inv_ack_head s.received s.acknowledged u rest hnd hms hsub
            exact ⟨h1, h2, h3, fun he hps => by simp [hf]⟩

/-- The invariant holds after any legitimate trace. -/
theorem Inv_run (ops : List Op) : ∀ s : StatusUpdateStream, Inv s →
    legit s ops = true → Inv (run s ops) := by
  induction ops with
  | nil => intro s h _; exact h
  | cons op rest ih =>
    intro s h hleg
    simp only [legit, Bool.and_eq_true] at hleg
    refine ih (step s op) (Inv_step s op h ?_) hleg.2
    cases op with
    | update u w => trivial
    | next => trivial
    | ack u w =>
      simpa using of_decide_eq_true hleg.1

/-! FIFO order: pending is always a suffix of the arrival sequence. -/

theorem step_pending_update_accepted (s : StatusUpdateStream)
    (u : StatusUpdate) (w : Option String) (h : accepts s u w = true) :
    (step s (.update u w)).pending = s.pending ++ [u] := by
  simp only [accepts, Bool.and_eq_true, decide_eq_true_eq] at h
  obtain ⟨⟨⟨he, ha⟩, hr⟩, hrest⟩ := h
  rw [Option.isNone_iff_eq_none] at he
  cases hp : s.path with
  | none =>
    simp [step, StatusUpdateStream.update_fresh_nopath s u w he ha hr hp]
  | some p =>
    rw [hp] at hrest
    simp only [Bool.and_eq_true] at hrest
    obtain ⟨hfs, hw⟩ := hrest
    rw [Option.isNone_iff_eq_none] at hw
    rw [Option.isSome_iff_exists] at hfs
    obtain ⟨fdv, hf⟩ := hfs
    subst hw
    simp [step, StatusUpdateStream.update_fresh_path_ok s u p fdv he ha hr hp hf]

theorem step_pending_update_rejected (s : StatusUpdateStream)
    (u : StatusUpdate) (w : Option String) (h : accepts s u w = false) :
    (step s (.update u w)).pending = s.pending := by
  cases herr : s.error with
  | some e => simp [step, StatusUpdateStream.update_error s u w e herr]
  | none =>
    by_cases hack : u.uuid ∈ s.acknowledged
    · simp [step, StatusUpdateStream.update_dup s u w herr (Or.inl hack)]
    · by_cases hrec : u.uuid ∈ s.received
      · simp [step, StatusUpdateStream.update_dup s u w herr (Or.inr hrec)]
      · cases hp : s.path with
        | none =>
          exfalso
          rw [accepts, herr, hp] at h
          simp [hack, hrec] at h
        | some p =>
          cases hf : s.fd with
          | none =>
            simp [step,
              StatusUpdateStream.update_fresh_path_nofd s u w p herr
                hack hrec hp hf]
          | some fdv =>
            cases w with
            | some e =>
              simp [step,
                StatusUpdateStream.update_fresh_path_fail s u p fdv e
                  herr hack hrec hp hf]
            | none =>
              exfalso
              rw [accepts, herr, hp, hf] at h
              simp [hack, hrec] at h

theorem step_pending_ack (s : StatusUpdateStream) (u : StatusUpdate)
    (w : Option String) :
    (step s (.ack u w)).pending = s.pending ∨
    (step s (.ack u w)).pending = s.pending.tail := by
  cases herr : s.error with
  | some e =>
    left; simp [step, StatusUpdateStream.ack_error s "" "" u.uuid u w e herr]
  | none =>
    cases hp : s.path with
    | none =>
      cases hpend : s.pending with
      | nil =>
        left
        simp [step, StatusUpdateStream.ack_match s "" "" u w herr,
          StatusUpdateStream.handle_ack_nopath_nil s u w herr hp hpend, hpend]
      | cons v rest =>
        right
        simp [step, StatusUpdateStream.ack_match s "" "" u w herr,
          StatusUpdateStream.handle_ack_nopath_cons s u v rest w herr hp hpend,
          hpend]
    | some p =>
      cases hf : s.fd with
      | none =>
        left
        simp [step, StatusUpdateStream.ack_match s "" "" u w herr,
          StatusUpdateStream.handle_ack_path_nofd s u w p herr hp hf]
      | some fdv =>
        cases w with
        | some e =>
          left
          simp [step, StatusUpdateStream.ack_match s "" "" u _ herr,
            StatusUpdateStream.handle_ack_path_fail s u p fdv e herr hp hf]
        | none =>
          cases hpend : s.pending with
          | nil =>
            left
            simp [step, StatusUpdateStream.ack_match s "" "" u _ herr,
              StatusUpdateStream.handle_ack_path_ok_nil s u p fdv herr
                hp hf hpend, hpend]
          | cons v rest =>
            right
            simp [step, StatusUpdateStream.ack_match s "" "" u _ herr,
              StatusUpdateStream.handle_ack_path_ok_cons s u v rest p fdv
                herr hp hf hpend, hpend]

theorem isSuffix_append_right (l₁ l₂ t : List StatusUpdate)
    (h : List.IsSuffix l₁ l₂) : List.IsSuffix (l₁ ++ t) (l₂ ++ t) := by
  obtain ⟨q, hq⟩ := h
  exact ⟨q, by rw [← List.append_assoc, hq]⟩

/-- After any trace, pending is a suffix of the initial pending followed
by the accepted arrivals, in order. -/
theorem run_pending_suffix (ops : List Op) : ∀ s : StatusUpdateStream,
    List.IsSuffix (run s ops).pending (s.pending ++ arrivals s ops) := by
  induction ops with
  | nil => intro s; simp [run, arrivals]
  | cons op rest ih =>
    intro s
    have ihs := ih (step s op)
    cases op with
    | update u w =>
      by_cases hacc : accepts s u w = true
      · have hpend := step_pending_update_accepted s u w hacc
        simp only [run, arrivals, hacc, if_true]
        rw [← List.append_assoc, ← hpend]
        exact ihs
      · have hacc2 : accepts s u w = false := by
          revert hacc; cases accepts s u w <;> simp
        have hpend := step_pending_update_rejected s u w hacc2
        simp only [run, arrivals, hacc2, if_false, List.nil_append, Bool.false_eq_true]
        rw [← hpend]
        exact ihs
    | ack u w =>
      simp only [run, arrivals, List.nil_append]
      rcases step_pending_ack s u w with hpend | hpend
      · rw [← hpend]; exact ihs
      · refine ihs.trans ?_
        rw [hpend]
        exact isSuffix_append_right _ _ _ (List.tail_suffix s.pending)
    | next =>
      simp only [run, arrivals, List.nil_append]
      exact ihs

/-! Frame lemmas. -/

theorem init_pending (path : Option String) (mkdirOk : Bool)
    (openResult : Except String Int) :
    (StatusUpdateStream.init path mkdirOk openResult).pending = [] := by
  cases path with
  | none => rfl
  | some p =>
    cases mkdirOk with
    | false => rfl
    | true => cases openResult with
      | error e => rfl
      | ok f => rfl

/-- A stream in the error state is frozen: no operation changes it. -/
theorem step_frozen (s : StatusUpdateStream) (e : String)
    (he : s.error = some e) (op : Op) : step s op = s := by
  cases op with
  | update u w => simp [step, StatusUpdateStream.update_error s u w e he]
  | ack u w =>
    simp [step, StatusUpdateStream.ack_error s "" "" u.uuid u w e he]
  | next => rfl

theorem run_frozen (s : StatusUpdateStream) (e : String)
    (he : s.error = some e) (ops : List Op) : run s ops = s := by
  induction ops with
  | nil => rfl
  | cons op rest ih => rw [run, step_frozen s e he op]; exact ih

/-- No operation ever changes `fd` or `path`. -/
theorem step_frame (s : StatusUpdateStream) (op : Op) :
    (step s op).fd = s.fd ∧ (step s op).path = s.path := by
  cases op with
  | next => exact ⟨rfl, rfl⟩
  | update u w =>
    cases herr : s.error with
    | some e => simp [step, StatusUpdateStream.update_error s u w e herr]
    | none =>
      by_cases hack : u.uuid ∈ s.acknowledged
      · simp [step, StatusUpdateStream.update_dup s u w herr (Or.inl hack)]
      · by_cases hrec : u.uuid ∈ s.received
        · simp [step, StatusUpdateStream.update_dup s u w herr (Or.inr hrec)]
        · cases hp : s.path with
          | none =>
            simp [step,
              StatusUpdateStream.update_fresh_nopath s u w herr hack hrec hp, hp]
          | some p =>
            cases hf : s.fd with
            | none =>
              simp [step,
                StatusUpdateStream.update_fresh_path_nofd s u w p herr
                  hack hrec hp hf, hp, hf]
            | some fdv =>
              cases w with
              | some e =>
                simp [step,
                  StatusUpdateStream.update_fresh_path_fail s u p fdv e
                    herr hack hrec hp hf, hp, hf]
              | none =>
                simp [step,
                  StatusUpdateStream.update_fresh_path_ok s u p fdv
                    herr hack hrec hp hf, hp, hf]
  | ack u w =>
    cases herr : s.error with
    | some e =>
      simp [step, StatusUpdateStream.ack_error s "" "" u.uuid u w e herr]
    | none =>
      cases hp : s.path with
      | none =>
        cases hpend : s.pending with
        | nil =>
          simp [step, StatusUpdateStream.ack_match s "" "" u w herr,
            StatusUpdateStream.handle_ack_nopath_nil s u w herr hp hpend, hp]
        | cons v rest =>
          simp [step, StatusUpdateStream.ack_match s "" "" u w herr,
            StatusUpdateStream.handle_ack_nopath_cons s u v rest w herr
              hp hpend, hp]
      | some p =>
        cases hf : s.fd with
        | none =>
          simp [step, StatusUpdateStream.ack_match s "" "" u w herr,
            StatusUpdateStream.handle_ack_path_nofd s u w p herr hp hf, hp, hf]
        | some fdv =>
          cases w with
          | some e =>
            simp [step, StatusUpdateStream.ack_match s "" "" u _ herr,
              StatusUpdateStream.handle_ack_path_fail s u p fdv e herr hp hf, hp, hf]
          | none =>
            cases hpend : s.pending with
            | nil =>
              simp [step, StatusUpdateStream.ack_match s "" "" u _ herr,
                StatusUpdateStream.handle_ack_path_ok_nil s u p fdv herr
                  hp hf hpend, hp, hf]
            | cons v rest =>
              simp [step, StatusUpdateStream.ack_match s "" "" u _ herr,
                StatusUpdateStream.handle_ack_path_ok_cons s u v rest p fdv
                  herr hp hf hpend, hp, hf]

/-! The claims. -/

/-- C1: on every trace from a fresh stream in which each
acknowledgement is paired with the current head of pending, at every
quiescent point the pending queue holds each uuid at most once, its
uuids are exactly the received but unacknowledged ones, and pending is a
suffix of the accepted updates in arrival order (FIFO insertion order of
successful update calls). -/
theorem C1_pending_is_received_minus_acknowledged
    (path : Option String) (mkdirOk : Bool) (openResult : Except String Int)
    (ops : List Op)
    (hleg : legit (StatusUpdateStream.init path mkdirOk openResult) ops = true) :
    ((run (StatusUpdateStream.init path mkdirOk openResult) ops).pending.map
        StatusUpdate.uuid).Nodup ∧
    ((run (StatusUpdateStream.init path mkdirOk openResult) ops).pending.map
        StatusUpdate.uuid).toFinset =
      (run (StatusUpdateStream.init path mkdirOk openResult) ops).received \
        (run (StatusUpdateStream.init path mkdirOk openResult) ops).acknowledged ∧
    List.IsSuffix
      (run (StatusUpdateStream.init path mkdirOk openResult) ops).pending
      (arrivals (StatusUpdateStream.init path mkdirOk openResult) ops) := by
  obtain ⟨h1, h2, -, -⟩ :=
    Inv_run ops _ (Inv_init path mkdirOk openResult) hleg
  refine ⟨h1, h2, ?_⟩
  have hs := run_pending_suffix ops (StatusUpdateStream.init path mkdirOk openResult)
  rwa [init_pending, List.nil_append] at hs

theorem C1_witness :
    legit (StatusUpdateStream.init none true (.ok 0))
      [.update tu1 none, .update tu2 none, .ack tu1 none] = true ∧
    (((run (StatusUpdateStream.init none true (.ok 0))
        [.update tu1 none, .update tu2 none, .ack tu1 none]).pending.map
          StatusUpdate.uuid).Nodup ∧
     ((run (StatusUpdateStream.init none true (.ok 0))
        [.update tu1 none, .update tu2 none, .ack tu1 none]).pending.map
          StatusUpdate.uuid).toFinset =
       (run (StatusUpdateStream.init none true (.ok 0))
          [.update tu1 none, .update tu2 none, .ack tu1 none]).received \
         (run (StatusUpdateStream.init none true (.ok 0))
            [.update tu1 none, .update tu2 none, .ack tu1 none]).acknowledged ∧
     List.IsSuffix
       (run (StatusUpdateStream.init none true (.ok 0))
         [.update tu1 none, .update tu2 none, .ack tu1 none]).pending
       (arrivals (StatusUpdateStream.init none true (.ok 0))
         [.update tu1 none, .update tu2 none, .ack tu1 none])) :=
  ⟨by decide,
   C1_pending_is_received_minus_acknowledged none true (.ok 0)
     [.update tu1 none, .update tu2 none, .ack tu1 none] (by decide)⟩

/-- C2 counterexample: acknowledging the same update twice is not a
no-op.  On a stream holding pending updates tu1 and tu2, one
acknowledgement of tu1 leaves pending holding tu2, a second
acknowledgement of tu1 empties pending (and the two states differ), so
applying the acknowledgement twice does not leave the stream in the
state reached by applying it once. -/
theorem C2_counterexample :
    c2base.acknowledgement "t" "f" tu1.uuid tu1 none =
      some (Except.ok (), c2once) ∧
    c2once.acknowledgement "t" "f" tu1.uuid tu1 none =
      some (Except.ok (), c2twice) ∧
    c2once.pending = [tu2] ∧ c2twice.pending = [] ∧ c2twice ≠ c2once := by
  decide

/-- C2 amended: applying update(u) twice leaves the stream in the same
state as applying it once, for any write outcomes; acknowledgement is
not idempotent: on a stream with at least two pending updates, a second
acknowledgement of the same update pops a further element off pending. -/
theorem C2_update_idempotent_ack_not
    (s : StatusUpdateStream) (u : StatusUpdate) (w1 w2 : Option String)
    (hwf : s.error = none → s.path.isSome → s.fd.isSome) :
    (∃ r1 s1, s.update u w1 = some (r1, s1) ∧
       ∃ r2, s1.update u w2 = some (r2, s1)) ∧
    (∀ v rest wa, s.error = none → s.path = none →
       s.pending = u :: v :: rest →
       ∃ s1 s2,
         s.acknowledgement "" "" u.uuid u wa = some (Except.ok (), s1) ∧
         s1.pending = v :: rest ∧
         s1.acknowledgement "" "" u.uuid u wa = some (Except.ok (), s2) ∧
         s2.pending = rest) := by
  constructor
  · cases herr : s.error with
    | some e =>
      exact ⟨Except.error e, s, StatusUpdateStream.update_error s u w1 e herr,
        Except.error e, StatusUpdateStream.update_error s u w2 e herr⟩
    | none =>
      by_cases hack : u.uuid ∈ s.acknowledged
      · exact ⟨Except.ok (), s,
          StatusUpdateStream.update_dup s u w1 herr (Or.inl hack),
          Except.ok (), StatusUpdateStream.update_dup s u w2 herr (Or.inl hack)⟩
      · by_cases hrec : u.uuid ∈ s.received
        · exact ⟨Except.ok (), s,
            StatusUpdateStream.update_dup s u w1 herr (Or.inr hrec),
            Except.ok (),
            StatusUpdateStream.update_dup s u w2 herr (Or.inr hrec)⟩
        · cases hp : s.path with
          | none =>
            refine ⟨Except.ok (), _,
              StatusUpdateStream.update_fresh_nopath s u w1 herr hack hrec hp,
              Except.ok (), ?_⟩
            exact StatusUpdateStream.update_dup _ u w2 herr
              (Or.inr (Finset.mem_insert_self _ _))
          | some p =>
            cases hf : s.fd with
            | none =>
              exfalso
              have := hwf herr (by simp [hp])
              rw [hf] at this
              simp at this
            | some fdv =>
              cases w1 with
              | some e =>
                refine ⟨Except.error ("Failed to write status update " ++
                    u.uuid ++ " to " ++ p ++ ": " ++ e),
                  { s with error := some ("Failed to write status update " ++
                      u.uuid ++ " to " ++ p ++ ": " ++ e) },
                  StatusUpdateStream.update_fresh_path_fail s u p fdv e
                    herr hack hrec hp hf, ?_⟩
                exact ⟨Except.error _,
                  StatusUpdateStream.update_error _ u w2
                    ("Failed to write status update " ++ u.uuid ++ " to " ++
                      p ++ ": " ++ e) rfl⟩
              | none =>
                refine ⟨Except.ok (), _,
                  StatusUpdateStream.update_fresh_path_ok s u p fdv
                    herr hack hrec hp hf, Except.ok (), ?_⟩
                exact StatusUpdateStream.update_dup _ u w2 herr
                  (Or.inr (Finset.mem_insert_self _ _))
  · intro v rest wa herr hp hpend
    refine ⟨{ s with acknowledged := insert u.uuid s.acknowledged, pending := v :: rest },
      { s with acknowledged := insert u.uuid (insert u.uuid s.acknowledged), pending := rest },
      ?_, rfl, ?_, rfl⟩
    · rw [StatusUpdateStream.ack_match s "" "" u wa herr]
      exact StatusUpdateStream.handle_ack_nopath_cons s u u (v :: rest)
        wa herr hp hpend
    · refine Eq.trans (StatusUpdateStream.ack_match
        { s with acknowledged := insert u.uuid s.acknowledged, pending := v :: rest }
        "" "" u wa herr) ?_
      exact StatusUpdateStream.handle_ack_nopath_cons
        { s with acknowledged := insert u.uuid s.acknowledged, pending := v :: rest }
        u v rest wa herr hp rfl

theorem C2_witness :
    (c2base.error = none → c2base.path.isSome → c2base.fd.isSome) ∧
    ((∃ r1 s1, c2base.update tu1 none = some (r1, s1) ∧
        ∃ r2, s1.update tu1 none = some (r2, s1)) ∧
     (∀ v rest wa, c2base.error = none → c2base.path = none →
        c2base.pending = tu1 :: v :: rest →
        ∃ s1 s2,
          c2base.acknowledgement "" "" tu1.uuid tu1 wa =
            some (Except.ok (), s1) ∧
          s1.pending = v :: rest ∧
          s1.acknowledgement "" "" tu1.uuid tu1 wa =
            some (Except.ok (), s2) ∧
          s2.pending = rest)) :=
  ⟨by decide, C2_update_idempotent_ack_not c2base tu1 none none (by decide)⟩

/-- C3: once error is set on a stream, update, acknowledgement and next
all return that same error, and the stream, its log included, never
changes again. -/
theorem C3_error_is_sticky (s : StatusUpdateStream) (e : String)
    (he : s.error = some e) :
    (∀ u w, s.update u w = some (Except.error e, s)) ∧
    (∀ t f uuid u w,
      s.acknowledgement t f uuid u w = some (Except.error e, s)) ∧
    s.next = MesosResult.error e ∧
    (∀ ops, run s ops = s) :=
  ⟨fun u w => StatusUpdateStream.update_error s u w e he,
   fun t f uuid u w => StatusUpdateStream.ack_error s t f uuid u w e he,
   by simp [StatusUpdateStream.next, he],
   fun ops => run_frozen s e he ops⟩

theorem C3_witness :
    errStream.error = some "Failed to create p" ∧
    ((∀ u w, errStream.update u w =
        some (Except.error "Failed to create p", errStream)) ∧
     (∀ t f uuid u w, errStream.acknowledgement t f uuid u w =
        some (Except.error "Failed to create p", errStream)) ∧
     errStream.next = MesosResult.error "Failed to create p" ∧
     (∀ ops, run errStream ops = errStream)) :=
  ⟨by decide, C3_error_is_sticky errStream "Failed to create p" (by decide)⟩

/-- C4: on a stream with no error, update of an already acknowledged or
received uuid succeeds without any in-memory or on-disk mutation, and
update of a fresh uuid (with a successful append when checkpointing)
appends an UPDATE record exactly when path is set, inserts the uuid into
received and pushes the update onto pending. -/
theorem C4_update_functional (s : StatusUpdateStream) (u : StatusUpdate)
    (w : Option String) (he : s.error = none)
    (hwf : s.path.isSome → s.fd.isSome) :
    (u.uuid ∈ s.acknowledged ∨ u.uuid ∈ s.received →
      s.update u w = some (Except.ok (), s)) ∧
    (u.uuid ∉ s.acknowledged → u.uuid ∉ s.received →
      (s.path.isSome → w = none) →
      s.update u w = some (Except.ok (),
        { s with received := insert u.uuid s.received,
                 pending := s.pending ++ [u],
                 log := s.log ++
                   (if s.path.isSome then [StatusUpdateRecord.update u]
                    else []) })) := by
  refine ⟨fun hd => StatusUpdateStream.update_dup s u w he hd,
    fun hack hrec hw => ?_⟩
  cases hp : s.path with
  | none =>
    rw [StatusUpdateStream.update_fresh_nopath s u w he hack hrec hp]
    simp [hp]
  | some p =>
    have hwn : w = none := hw (by simp [hp])
    obtain ⟨fdv, hf⟩ := Option.isSome_iff_exists.mp (hwf (by simp [hp]))
    subst hwn
    rw [StatusUpdateStream.update_fresh_path_ok s u p fdv he hack hrec hp hf]
    simp [hp]

theorem C4_witness :
    freshC.error = none ∧ (freshC.path.isSome → freshC.fd.isSome) ∧
    ((tu1.uuid ∈ freshC.acknowledged ∨ tu1.uuid ∈ freshC.received →
       freshC.update tu1 none = some (Except.ok (), freshC)) ∧
     (tu1.uuid ∉ freshC.acknowledged → tu1.uuid ∉ freshC.received →
       (freshC.path.isSome → (none : Option String) = none) →
       freshC.update tu1 none = some (Except.ok (),
         { freshC with received := insert tu1.uuid freshC.received,
                       pending := freshC.pending ++ [tu1],
                       log := freshC.log ++
                         (if freshC.path.isSome
                          then [StatusUpdateRecord.update tu1]
                          else []) }))) :=
  ⟨by decide, by decide,
   C4_update_functional freshC tu1 none (by decide) (by decide)⟩

/-- C5: on every trace from a fresh stream in which each
acknowledgement is paired with the current head of pending, every
acknowledged uuid was previously received. -/
theorem C5_acknowledged_subset_received
    (path : Option String) (mkdirOk : Bool) (openResult : Except String Int)
    (ops : List Op)
    (hleg : legit (StatusUpdateStream.init path mkdirOk openResult) ops = true) :
    (run (StatusUpdateStream.init path mkdirOk openResult) ops).acknowledged ⊆
      (run (StatusUpdateStream.init path mkdirOk openResult) ops).received :=
  (Inv_run ops _ (Inv_init path mkdirOk openResult) hleg).2.2.1

theorem C5_witness :
    legit (StatusUpdateStream.init (some "updates") true (.ok 3))
      [.update tu1 none, .ack tu1 none, .update tu2 none] = true ∧
    (run (StatusUpdateStream.init (some "updates") true (.ok 3))
       [.update tu1 none, .ack tu1 none, .update tu2 none]).acknowledged ⊆
      (run (StatusUpdateStream.init (some "updates") true (.ok 3))
        [.update tu1 none, .ack tu1 none, .update tu2 none]).received :=
  ⟨by decide,
   C5_acknowledged_subset_received (some "updates") true (.ok 3)
     [.update tu1 none, .ack tu1 none, .update tu2 none] (by decide)⟩

/-- C6 counterexample: a failed append sets error but does not close the
file descriptor.  After an update whose write fails on a fresh
checkpointing stream, error is set while fd still holds the open
descriptor, contradicting the claim that fd is absent whenever error is
set. -/
theorem C6_counterexample : c6s.error.isSome = true ∧ c6s.fd = some 3 := by
  decide

/-- C6 amended: whenever error is set no further records are appended to
the log; the operations never close fd (a failed append leaves the
descriptor open, it is closed only by the destructor); a constructor
failure leaves fd absent. -/
theorem C6_error_log_fd (s : StatusUpdateStream) :
    (∀ e, s.error = some e → ∀ ops, (run s ops).log = s.log) ∧
    (∀ op, (step s op).fd = s.fd) ∧
    (∀ p mkdirOk openResult,
      (StatusUpdateStream.init (some p) mkdirOk openResult).error.isSome →
      (StatusUpdateStream.init (some p) mkdirOk openResult).fd = none) := by
  refine ⟨fun e he ops => by rw [run_frozen s e he ops],
    fun op => (step_frame s op).1,
    fun p mkdirOk openResult he => ?_⟩
  cases mkdirOk with
  | false => rfl
  | true =>
    cases openResult with
    | error e2 => rfl
    | ok f => simp [StatusUpdateStream.init] at he

theorem C6_witness :
    (run c6s [.update tu2 none]).log = c6s.log ∧
    (step c6s (.update tu2 none)).fd = c6s.fd ∧
    (StatusUpdateStream.init (some "p") false (.error "x")).fd = none :=
  ⟨(C6_error_log_fd c6s).1
     ("Failed to write status update uuid-1 to updates: disk full")
     (by decide) [.update tu2 none],
   (C6_error_log_fd c6s).2.1 (.update tu2 none),
   (C6_error_log_fd c6s).2.2 "p" false (.error "x") (by decide)⟩

/-- C7: on a stream with no error, an acknowledgement whose uuid differs
from the uuid of the paired update aborts the process (CHECK failure),
and with equal uuids the check is passed and the call proceeds to handle
the ACK, recording it. -/
theorem C7_uuid_mismatch_aborts (s : StatusUpdateStream) (t f uuid : String)
    (u : StatusUpdate) (w : Option String) (he : s.error = none) :
    (uuid ≠ u.uuid → s.acknowledgement t f uuid u w = none) ∧
    (uuid = u.uuid → s.acknowledgement t f uuid u w = s.handle u .ACK w) ∧
    (∀ v rest, uuid = u.uuid → s.pending = v :: rest → s.path = none →
      s.acknowledgement t f uuid u w = some (Except.ok (),
        { s with acknowledged := insert u.uuid s.acknowledged,
                 pending := rest })) := by
  refine ⟨fun hne => StatusUpdateStream.ack_mismatch s t f uuid u w he hne,
    fun heq => heq ▸ StatusUpdateStream.ack_match s t f u w he,
    fun v rest heq hpend hp => ?_⟩
  subst heq
  rw [StatusUpdateStream.ack_match s t f u w he]
  exact StatusUpdateStream.handle_ack_nopath_cons s u v rest w he hp hpend

theorem C7_witness :
    c2base.error = none ∧
    (("deadbeef" ≠ tu1.uuid →
       c2base.acknowledgement "t" "f" "deadbeef" tu1 none = none) ∧
     ("deadbeef" = tu1.uuid →
       c2base.acknowledgement "t" "f" "deadbeef" tu1 none =
         c2base.handle tu1 .ACK none) ∧
     (∀ v rest, "deadbeef" = tu1.uuid → c2base.pending = v :: rest →
       c2base.path = none →
       c2base.acknowledgement "t" "f" "deadbeef" tu1 none =
         some (Except.ok (),
           { c2base with acknowledged := insert tu1.uuid c2base.acknowledged,
                         pending := rest }))) :=
  ⟨by decide,
   C7_uuid_mismatch_aborts c2base "t" "f" "deadbeef" tu1 none (by decide)⟩

/-- C8: next returns the sticky error when error is set, otherwise the
front of pending when pending is non-empty and none when it is empty,
and in all cases mutates no field of the stream. -/
theorem C8_next_returns_front (s : StatusUpdateStream) :
    (∀ e, s.error = some e → s.next = MesosResult.error e) ∧
    (s.error = none → s.pending = [] → s.next = MesosResult.none) ∧
    (∀ u rest, s.error = none → s.pending = u :: rest →
      s.next = MesosResult.some u) ∧
    step s .next = s :=
  ⟨fun e he => by simp [StatusUpdateStream.next, he],
   fun he hp => by simp [StatusUpdateStream.next, he, hp],
   fun u rest he hp => by simp [StatusUpdateStream.next, he, hp],
   rfl⟩

theorem C8_witness :
    errStream.next = MesosResult.error "Failed to create p" ∧
    fresh.next = MesosResult.none ∧
    c2base.next = MesosResult.some tu1 ∧
    step c2base .next = c2base :=
  ⟨(C8_next_returns_front errStream).1 _ (by decide),
   (C8_next_returns_front fresh).2.1 (by decide) (by decide),
   (C8_next_returns_front c2base).2.2.1 tu1 [tu2] (by decide) (by decide),
   (C8_next_returns_front c2base).2.2.2⟩

/-- C9: with no error set and a matching uuid, the stream-level
acknowledgement pops pending unconditionally: when pending is empty and
the append does not fail first, the call runs into the undefined
empty pop (abort), and whenever pending is non-empty the call is
defined. -/
theorem C9_ack_requires_nonempty_pending (s : StatusUpdateStream)
    (t f : String) (u : StatusUpdate) (w : Option String)
    (he : s.error = none) (hwf : s.path.isSome → s.fd.isSome) :
    (s.pending = [] → (s.path = none ∨ w = none) →
      s.acknowledgement t f u.uuid u w = none) ∧
    (s.pending ≠ [] → (s.acknowledgement t f u.uuid u w).isSome = true) := by
  constructor
  · intro hpend hd
    rw [StatusUpdateStream.ack_match s t f u w he]
    cases hp : s.path with
    | none => exact StatusUpdateStream.handle_ack_nopath_nil s u w he hp hpend
    | some p =>
      obtain ⟨fdv, hf⟩ := Option.isSome_iff_exists.mp (hwf (by simp [hp]))
      rcases hd with hd | hd
      · rw [hp] at hd; cases hd
      · subst hd
        exact StatusUpdateStream.handle_ack_path_ok_nil s u p fdv he hp hf hpend
  · intro hpend
    rw [StatusUpdateStream.ack_match s t f u w he]
    obtain ⟨v, rest, hvp⟩ : ∃ v rest, s.pending = v :: rest := by
      cases hc : s.pending with
      | nil => exact absurd hc hpend
      | cons a b => exact ⟨a, b, rfl⟩
    cases hp : s.path with
    | none =>
      rw [StatusUpdateStream.handle_ack_nopath_cons s u v rest w he hp hvp]
      rfl
    | some p =>
      obtain ⟨fdv, hf⟩ := Option.isSome_iff_exists.mp (hwf (by simp [hp]))
      cases w with
      | some e =>
        rw [StatusUpdateStream.handle_ack_path_fail s u p fdv e he hp hf]
        rfl
      | none =>
        rw [StatusUpdateStream.handle_ack_path_ok_cons s u v rest p fdv
          he hp hf hvp]
        rfl

theorem C9_witness :
    c2base.error = none ∧ (c2base.path.isSome → c2base.fd.isSome) ∧
    ((c2base.pending = [] → (c2base.path = none ∨ (none : Option String) = none) →
       c2base.acknowledgement "t" "f" tu1.uuid tu1 none = none) ∧
     (c2base.pending ≠ [] →
       (c2base.acknowledgement "t" "f" tu1.uuid tu1 none).isSome = true)) :=
  ⟨by decide, by decide,
   C9_ack_requires_nonempty_pending c2base "t" "f" tu1 none
     (by decide) (by decide)⟩

/-- C10: when the log append fails, both update and acknowledgement
return an error and leave received, acknowledged, pending and the log
exactly as before the call; only error is newly set. -/
theorem C10_failed_append_is_atomic (s : StatusUpdateStream)
    (u : StatusUpdate) (p : String) (fdv : Int) (e : String)
    (he : s.error = none) (hp : s.path = some p) (hf : s.fd = some fdv) :
    (u.uuid ∉ s.acknowledged → u.uuid ∉ s.received →
      s.update u (some e) = some (Except.error
        ("Failed to write status update " ++ u.uuid ++ " to " ++ p ++
          ": " ++ e),
        { s with error := some ("Failed to write status update " ++ u.uuid ++
            " to " ++ p ++ ": " ++ e) })) ∧
    (∀ t f, s.acknowledgement t f u.uuid u (some e) = some (Except.error
        ("Failed to write status update " ++ u.uuid ++ " to " ++ p ++
          ": " ++ e),
        { s with error := some ("Failed to write status update " ++ u.uuid ++
            " to " ++ p ++ ": " ++ e) })) :=
  ⟨fun hack hrec =>
     StatusUpdateStream.update_fresh_path_fail s u p fdv e he hack hrec hp hf,
   fun t f => by
     rw [StatusUpdateStream.ack_match s t f u (some e) he]
     exact StatusUpdateStream.handle_ack_path_fail s u p fdv e he hp hf⟩

theorem C10_witness :
    freshC.error = none ∧ freshC.path = some "updates" ∧
    freshC.fd = some 3 ∧
    ((tu1.uuid ∉ freshC.acknowledged → tu1.uuid ∉ freshC.received →
       freshC.update tu1 (some "boom") = some (Except.error
         ("Failed to write status update " ++ tu1.uuid ++ " to " ++
           "updates" ++ ": " ++ "boom"),
         { freshC with error := some ("Failed to write status update " ++
             tu1.uuid ++ " to " ++ "updates" ++ ": " ++ "boom") })) ∧
     (∀ t f, freshC.acknowledgement t f tu1.uuid tu1 (some "boom") =
       some (Except.error
         ("Failed to write status update " ++ tu1.uuid ++ " to " ++
           "updates" ++ ": " ++ "boom"),
         { freshC with error := some ("Failed to write status update " ++
             tu1.uuid ++ " to " ++ "updates" ++ ": " ++ "boom") }))) :=
  ⟨by decide, by decide, by decide,
   C10_failed_append_is_atomic freshC tu1 "updates" 3 "boom"
     (by decide) (by decide) (by decide)⟩

end Mesos
